import Mathlib

/-!
Shallow embedding of the krpc C++ client decoder
(`src/client/cpp/include/krpc/decoder.hpp`) and proofs about its container,
tuple, object-handle, enum and delimited-message decoding behaviour.

Byte strings (`std::string` used as a raw byte buffer) are modelled as lists
of byte values.  The element decoders invoked recursively by the container
templates, and the envelope-message parser (`ParseFromString` of the external
protobuf schema layer), are parameters of the embedded functions, mirroring
how the C++ templates are generic in the element type and call out to the
schema layer.
-/

set_option autoImplicit false


/-- Byte strings (`std::string` used as raw byte buffer): a list of byte values. -/
abbrev Bytes := List Nat

/-- Failure outcomes of a decode call.  `decodeFailed` models the
`krpc::decoder::DecodeFailed` exception; `indexOutOfRange` models an
out-of-range access to a protobuf repeated field (`items(i)` with
`i >= items_size()`), which is a bounds-assertion failure in the protobuf
runtime, not a `DecodeFailed` exception. -/
inductive DecodeError where
  | decodeFailed
  | indexOutOfRange
deriving DecidableEq

/-- Opaque client handle (`krpc::Client`); the decoder never inspects it. -/
structure Client where
  handle : Nat
deriving DecidableEq

/-- Remote object handle (`krpc::Object<T>`), restricted to the two fields the
decoder writes.  `client` is an `Option` because the C++ `Client*` may be
`NULL` (modelled as `none`). -/
structure Object where
  id : Nat
  client : Option Client
deriving DecidableEq

/-- An element decoder, as invoked by the container templates: it receives the
item's byte string and the client pointer and either returns a value or fails. -/
abbrev ElemDec (α : Type) := Bytes → Option Client → Except DecodeError α

/-- Outcome of `ParseFromString` on a List/Set/Tuple envelope message, applied
to the input bytes: the returned success flag together with the repeated
`items` field the message holds after the call (on a failed parse, whatever a
partial merge produced). -/
abbrev ParseFn := Bytes → Bool × List Bytes

/-- Outcome of `ParseFromString` on a Dictionary envelope message: success flag
and the repeated `entries` field, each entry a (key bytes, value bytes) pair. -/
abbrev DictParseFn := Bytes → Bool × List (Bytes × Bytes)

/-- Access `message.items(i)` on a parsed envelope: in range returns the item,
out of range is the repeated-field bounds failure. -/
def pbGet (items : List Bytes) (i : Nat) : Except DecodeError Bytes :=
  if h : i < items.length then Except.ok (items.get ⟨i, h⟩)
  else Except.error DecodeError.indexOutOfRange

/-- Loop of `decode(std::vector<T>&, const std::string&, Client*)`
(decoder.hpp lines 63-67): decode each item in order and `push_back` it; an
element failure propagates, leaving the caller's vector as filled so far. -/
def decodeItemsVec {α : Type} (dec : ElemDec α) (client : Option Client) :
    List Bytes → List α → Except DecodeError Unit × List α
  | [], acc => (Except.ok (), acc)
  | b :: rest, acc =>
    match dec b client with
    | Except.ok v => decodeItemsVec dec client rest (acc ++ [v])
    | Except.error e => (Except.error e, acc)

/-- `decode(std::vector<T>& list, const std::string& data, Client* client)`
(decoder.hpp lines 58-68): `list.clear()` discards the prior contents, the
List envelope is parsed (the parse success flag is not checked), then the
items are decoded in order.  The result is the call outcome together with the
final contents of the caller's vector (which the C++ code mutates in place). -/
def decodeVector {α : Type} (parse : ParseFn) (dec : ElemDec α) (data : Bytes)
    (client : Option Client) (prior : List α) : Except DecodeError Unit × List α :=
  decodeItemsVec dec client (parse data).2 (List.take 0 prior)

/-- Loop of `decode(std::set<T>&, const std::string&, Client*)`
(decoder.hpp lines 90-94): decode each item and `insert` it; duplicates
collapse to one entry (`std::set` unique membership). -/
def decodeItemsSet {α : Type} [DecidableEq α] (dec : ElemDec α) (client : Option Client) :
    List Bytes → Finset α → Except DecodeError Unit × Finset α
  | [], acc => (Except.ok (), acc)
  | b :: rest, acc =>
    match dec b client with
    | Except.ok v => decodeItemsSet dec client rest (insert v acc)
    | Except.error e => (Except.error e, acc)

/-- `decode(std::set<T>& set, const std::string& data, Client* client)`
(decoder.hpp lines 85-95): `set.clear()`, parse the Set envelope (flag
unchecked), then decode and insert the items in encounter order. -/
def decodeSet {α : Type} [DecidableEq α] (parse : ParseFn) (dec : ElemDec α) (data : Bytes)
    (client : Option Client) (prior : Finset α) : Except DecodeError Unit × Finset α :=
  decodeItemsSet dec client (parse data).2 (Finset.filter (fun _ => False) prior)

/-- Insertion into the key-sorted entry list modelling `std::map`:
`dictionary[key] = value` overwrites the value when the key is present and
otherwise inserts the pair at its sorted position. -/
def mapInsert {K : Type} {V : Type} [LinearOrder K] :
    List (K × V) → K → V → List (K × V)
  | [], k, v => [(k, v)]
  | e :: rest, k, v =>
    if k < e.1 then (k, v) :: e :: rest
    else if k = e.1 then (k, v) :: rest
    else e :: mapInsert rest k v

/-- Loop of `decode(std::map<K,V>&, const std::string&, Client*)`
(decoder.hpp lines 75-82): for each entry decode the key from `entry.key()`
and the value from `entry.value()`, then `dictionary[key] = value`; a failure
while decoding either one propagates, leaving the map as populated so far. -/
def decodeItemsMap {K : Type} {V : Type} [LinearOrder K]
    (decK : ElemDec K) (decV : ElemDec V) (client : Option Client) :
    List (Bytes × Bytes) → List (K × V) → Except DecodeError Unit × List (K × V)
  | [], acc => (Except.ok (), acc)
  | e :: rest, acc =>
    match decK e.1 client with
    | Except.error err => (Except.error err, acc)
    | Except.ok k =>
      match decV e.2 client with
      | Except.error err => (Except.error err, acc)
      | Except.ok v => decodeItemsMap decK decV client rest (mapInsert acc k v)

/-- `decode(std::map<K,V>& dictionary, const std::string& data, Client* client)`
(decoder.hpp lines 70-83): `dictionary.clear()`, parse the Dictionary envelope
(flag unchecked), then decode the entries in order. -/
def decodeMap {K : Type} {V : Type} [LinearOrder K] (parse : DictParseFn)
    (decK : ElemDec K) (decV : ElemDec V) (data : Bytes) (client : Option Client)
    (prior : List (K × V)) : Except DecodeError Unit × List (K × V) :=
  decodeItemsMap decK decV client (parse data).2 (List.take 0 prior)

/-- `decode(boost::tuple<T0>&, const std::string&, Client*)` (decoder.hpp
lines 97-102): parse the Tuple envelope (flag unchecked), then decode slot 0
from `items(0)`.  No arity check is performed. -/
def decodeTuple1 {α : Type} (parse : ParseFn) (d0 : ElemDec α) (data : Bytes)
    (client : Option Client) : Except DecodeError α := do
  let items := (parse data).2
  let b0 ← pbGet items 0
  d0 b0 client

/-- `decode(boost::tuple<T0,T1>&, ...)` (decoder.hpp lines 104-110). -/
def decodeTuple2 {α β : Type} (parse : ParseFn) (d0 : ElemDec α) (d1 : ElemDec β)
    (data : Bytes) (client : Option Client) : Except DecodeError (α × β) := do
  let items := (parse data).2
  let b0 ← pbGet items 0
  let v0 ← d0 b0 client
  let b1 ← pbGet items 1
  let v1 ← d1 b1 client
  Except.ok (v0, v1)

/-- `decode(boost::tuple<T0,T1,T2>&, ...)` (decoder.hpp lines 112-119). -/
def decodeTuple3 {α β γ : Type} (parse : ParseFn) (d0 : ElemDec α) (d1 : ElemDec β)
    (d2 : ElemDec γ) (data : Bytes) (client : Option Client) :
    Except DecodeError (α × β × γ) := do
  let items := (parse data).2
  let b0 ← pbGet items 0
  let v0 ← d0 b0 client
  let b1 ← pbGet items 1
  let v1 ← d1 b1 client
  let b2 ← pbGet items 2
  let v2 ← d2 b2 client
  Except.ok (v0, v1, v2)

/-- `decode(boost::tuple<T0,T1,T2,T3>&, ...)` (decoder.hpp lines 121-129). -/
def decodeTuple4 {α β γ δ : Type} (parse : ParseFn) (d0 : ElemDec α) (d1 : ElemDec β)
    (d2 : ElemDec γ) (d3 : ElemDec δ) (data : Bytes) (client : Option Client) :
    Except DecodeError (α × β × γ × δ) := do
  let items := (parse data).2
  let b0 ← pbGet items 0
  let v0 ← d0 b0 client
  let b1 ← pbGet items 1
  let v1 ← d1 b1 client
  let b2 ← pbGet items 2
  let v2 ← d2 b2 client
  let b3 ← pbGet items 3
  let v3 ← d3 b3 client
  Except.ok (v0, v1, v2, v3)

/-- `decode(boost::tuple<T0,T1,T2,T3,T4>&, ...)` (decoder.hpp lines 131-140). -/
def decodeTuple5 {α β γ δ ε : Type} (parse : ParseFn) (d0 : ElemDec α) (d1 : ElemDec β)
    (d2 : ElemDec γ) (d3 : ElemDec δ) (d4 : ElemDec ε) (data : Bytes)
    (client : Option Client) : Except DecodeError (α × β × γ × δ × ε) := do
  let items := (parse data).2
  let b0 ← pbGet items 0
  let v0 ← d0 b0 client
  let b1 ← pbGet items 1
  let v1 ← d1 b1 client
  let b2 ← pbGet items 2
  let v2 ← d2 b2 client
  let b3 ← pbGet items 3
  let v3 ← d3 b3 client
  let b4 ← pbGet items 4
  let v4 ← d4 b4 client
  Except.ok (v0, v1, v2, v3, v4)

/-- `decode(Object<T>& object, const std::string& data, Client* client)`
(decoder.hpp lines 50-56): decode an unsigned 64-bit id via the scalar
decoder, then `object.client = client; object.id = id`. -/
def decodeObject (decU64 : ElemDec Nat) (data : Bytes) (client : Option Client) :
    Except DecodeError Object :=
  match decU64 data client with
  | Except.error e => Except.error e
  | Except.ok i => Except.ok (Object.mk i client)

/-- Value of an enumerated type, carrying the raw numeric value produced by
`static_cast<T>(x)`; no field records membership in the known enumerators. -/
structure EnumVal where
  val : Int
deriving DecidableEq

/-- `decode_enum` (decoder.hpp lines 142-147): decode a signed 32-bit integer
via the scalar decoder, then reinterpret its numeric value as the target
enumerated type. -/
def decode_enum (decI32 : ElemDec Int) (data : Bytes) (client : Option Client) :
    Except DecodeError EnumVal :=
  match decI32 data client with
  | Except.error e => Except.error e
  | Except.ok x => Except.ok (EnumVal.mk x)

/-- Loop of the size-and-position scan: read base-128 continuation bytes
accumulating the value; the scan fails when the buffer ends before a
terminating byte (high bit clear) appears. -/
def svpLoop : List Nat → Nat → Nat → Nat → Option (Nat × Nat)
  | [], _, _, _ => none
  | b :: rest, shift, acc, pos =>
    if b < 128 then some ((acc + b <<< shift) % 2 ^ 32, pos + 1)
    else svpLoop rest (shift + 7) (acc + (b % 128) <<< shift) (pos + 1)

/-- Modelled from the spec: `decode_size_and_position` is declared in
decoder.hpp (line 48) but implemented in decoder.cpp, which is not among the
sources.  Per spec section 4.6 it reads a variable-length unsigned integer
(uint32) from the start of the buffer, returning the decoded value and the
byte offset immediately following the length prefix, and fails if the buffer
ends before the variable-length integer terminates. -/
def decode_size_and_position (data : Bytes) : Option (Nat × Nat) :=
  svpLoop data 0 0 0

/-- Modelled from the spec: `decode_delimited` is declared in decoder.hpp
(line 46) but implemented in decoder.cpp, which is not among the sources.
Per spec section 4.6 it performs the size-and-position scan, fails with
`DecodeFailed` if fewer payload bytes are available than declared, and
otherwise parses the payload bytes (of the scanned length) as a structured
message via the external schema layer (`msgParse`), failing with
`DecodeFailed` on parse failure. -/
def delimitedStep (msgParse : Bytes → Bool) (data : Bytes) :
    Option (Nat × Nat) → Except DecodeError Unit
  | none => Except.error DecodeError.decodeFailed
  | some (size, pos) =>
    if data.length - pos < size then Except.error DecodeError.decodeFailed
    else if msgParse ((data.drop pos).take size) then Except.ok ()
    else Except.error DecodeError.decodeFailed

/-- Modelled from the spec: `decode_delimited` performs the size-and-position
scan and then the payload extraction and schema-layer parse of
`delimitedStep`. -/
def decode_delimited (msgParse : Bytes → Bool) (data : Bytes) :
    Except DecodeError Unit :=
  delimitedStep msgParse data (decode_size_and_position data)

/-- Reference base-128 varint encoding (the mirror encoder of spec section 8),
used to state which buffers begin with a complete variable-length integer. -/
def varintEncode (n : Nat) : Bytes :=
  if n < 128 then [n] else (n % 128 + 128) :: varintEncode (n / 128)
decreasing_by
  exact Nat.div_lt_self (by omega) (by omega)

/-- Keys of the entry list modelling a `std::map`. -/
def mapKeys {K : Type} {V : Type} (m : List (K × V)) : List K :=
  m.map Prod.fst

/-- Lookup in the entry list modelling a `std::map`. -/
def lookupKV {K : Type} {V : Type} [DecidableEq K] :
    List (K × V) → K → Option V
  | [], _ => none
  | e :: rest, k => if e.1 = k then some e.2 else lookupKV rest k

/-- Last value decoded for a key in a run of dictionary entries (the
last-seen-wins reference). -/
def assocLast {K : Type} {V : Type} [DecidableEq K] :
    List (K × V) → K → Option V
  | [], _ => none
  | e :: rest, k =>
    match assocLast rest k with
    | some v => some v
    | none => if e.1 = k then some e.2 else none

/-! ### Helper lemmas -/

theorem pbGet_nil (i : Nat) : pbGet [] i = Except.error DecodeError.indexOutOfRange := rfl

theorem pbGet_cons_zero (b : Bytes) (rest : List Bytes) : pbGet (b :: rest) 0 = Except.ok b := by
  simp [pbGet]

theorem pbGet_cons_succ (b : Bytes) (rest : List Bytes) (i : Nat) :
    pbGet (b :: rest) (i + 1) = pbGet rest i := by
  by_cases h : i < rest.length <;> simp [pbGet, h, Nat.succ_lt_succ_iff]

theorem decodeItemsVec_ok {α : Type} (dec : ElemDec α) (client : Option Client)
    (items : List Bytes) (acc out : List α)
    (h : decodeItemsVec dec client items acc = (Except.ok (), out)) :
    ∃ vs, List.Forall₂ (fun b v => dec b client = Except.ok v) items vs ∧ out = acc ++ vs := by
  induction items generalizing acc with
  | nil =>
    refine ⟨[], List.Forall₂.nil, ?_⟩
    have : acc = out := by simpa [decodeItemsVec] using congrArg Prod.snd h
    simp [this]
  | cons b rest ih =>
    cases hb : dec b client with
    | error e => simp [decodeItemsVec, hb] at h
    | ok v =>
      have h2 : decodeItemsVec dec client rest (acc ++ [v]) = (Except.ok (), out) := by
        simpa [decodeItemsVec, hb] using h
      obtain ⟨vs, hf, hout⟩ := ih _ h2
      exact ⟨v :: vs, List.Forall₂.cons hb hf, by simp [hout]⟩

theorem decodeItemsVec_append_ok {α : Type} (dec : ElemDec α) (client : Option Client)
    (f : Bytes → α) (pre tail : List Bytes) (acc : List α)
    (h : ∀ b ∈ pre, dec b client = Except.ok (f b)) :
    decodeItemsVec dec client (pre ++ tail) acc =
      decodeItemsVec dec client tail (acc ++ pre.map f) := by
  induction pre generalizing acc with
  | nil => simp
  | cons b pre ih =>
    have hb : dec b client = Except.ok (f b) := h b (by simp)
    simp only [List.cons_append, decodeItemsVec, hb]
    show decodeItemsVec dec client (pre ++ tail) (acc ++ [f b]) = _
    rw [ih _ (fun x hx => h x (by simp [hx]))]
    simp

theorem decodeItemsVec_client {α : Type} (dec : ElemDec α) (c c2 : Option Client)
    (items : List Bytes) (acc : List α) :
    decodeItemsVec (fun b «_» => dec b c) c2 items acc = decodeItemsVec dec c items acc := by
  induction items generalizing acc with
  | nil => rfl
  | cons b rest ih =>
    simp only [decodeItemsVec]
    cases dec b c <;> simp [ih]

theorem decodeItemsSet_ok {α : Type} [DecidableEq α] (dec : ElemDec α) (client : Option Client)
    (items : List Bytes) (s sOut : Finset α)
    (h : decodeItemsSet dec client items s = (Except.ok (), sOut)) :
    ∃ vs, List.Forall₂ (fun b v => dec b client = Except.ok v) items vs ∧
      sOut = vs.toFinset ∪ s := by
  induction items generalizing s with
  | nil =>
    refine ⟨[], List.Forall₂.nil, ?_⟩
    have : s = sOut := by simpa [decodeItemsSet] using congrArg Prod.snd h
    simp [this]
  | cons b rest ih =>
    cases hb : dec b client with
    | error e => simp [decodeItemsSet, hb] at h
    | ok v =>
      have h2 : decodeItemsSet dec client rest (insert v s) = (Except.ok (), sOut) := by
        simpa [decodeItemsSet, hb] using h
      obtain ⟨vs, hf, hout⟩ := ih _ h2
      refine ⟨v :: vs, List.Forall₂.cons hb hf, ?_⟩
      rw [hout, List.toFinset_cons, Finset.union_insert, Finset.insert_union]

theorem decodeItemsSet_client {α : Type} [DecidableEq α] (dec : ElemDec α)
    (c c2 : Option Client) (items : List Bytes) (acc : Finset α) :
    decodeItemsSet (fun b «_» => dec b c) c2 items acc = decodeItemsSet dec c items acc := by
  induction items generalizing acc with
  | nil => rfl
  | cons b rest ih =>
    simp only [decodeItemsSet]
    cases dec b c <;> simp [ih]

theorem decodeItemsMap_client {K V : Type} [LinearOrder K] (decK : ElemDec K)
    (decV : ElemDec V) (c c2 : Option Client) (entries : List (Bytes × Bytes))
    (acc : List (K × V)) :
    decodeItemsMap (fun b «_» => decK b c) (fun b «_» => decV b c) c2 entries acc =
      decodeItemsMap decK decV c entries acc := by
  induction entries generalizing acc with
  | nil => rfl
  | cons e rest ih =>
    simp only [decodeItemsMap]
    cases decK e.1 c <;> cases decV e.2 c <;> simp [ih]

theorem lookupKV_mapInsert_self {K V : Type} [LinearOrder K] (m : List (K × V)) (k : K) (v : V) :
    lookupKV (mapInsert m k v) k = some v := by
  induction m with
  | nil => simp [mapInsert, lookupKV]
  | cons e rest ih =>
    by_cases h1 : k < e.1
    · simp [mapInsert, h1, lookupKV]
    · by_cases h2 : k = e.1
      · simp [mapInsert, h1, h2, lookupKV]
      · have h3 : e.1 ≠ k := fun hh => h2 hh.symm
        simp [mapInsert, h1, h2, lookupKV, h3, ih]

theorem lookupKV_mapInsert_ne {K V : Type} [LinearOrder K] (m : List (K × V)) (k j : K) (v : V)
    (hne : j ≠ k) : lookupKV (mapInsert m k v) j = lookupKV m j := by
  have hkj : ¬ k = j := fun hh => hne hh.symm
  induction m with
  | nil => simp [mapInsert, lookupKV, hkj]
  | cons e rest ih =>
    by_cases h1 : k < e.1
    · simp [mapInsert, h1, lookupKV, hkj]
    · by_cases h2 : k = e.1
      · subst h2
        simp [mapInsert, h1, lookupKV, hkj]
      · simp only [mapInsert, h1, if_false, h2, lookupKV]
        by_cases h4 : e.1 = j
        · simp [h4]
        · simp [h4, ih]

theorem mapKeys_nil {K V : Type} : mapKeys ([] : List (K × V)) = [] := rfl

theorem mapKeys_cons {K V : Type} (e : K × V) (rest : List (K × V)) :
    mapKeys (e :: rest) = e.1 :: mapKeys rest := rfl

theorem mapKeys_mapInsert_mem {K V : Type} [LinearOrder K] (m : List (K × V)) (k j : K) (v : V)
    (h : j ∈ mapKeys (mapInsert m k v)) : j = k ∨ j ∈ mapKeys m := by
  induction m with
  | nil =>
    simp [mapInsert, mapKeys] at h
    simp [h]
  | cons e rest ih =>
    by_cases h1 : k < e.1
    · simp [mapInsert, h1, mapKeys_cons] at h ⊢
      tauto
    · by_cases h2 : k = e.1
      · subst h2
        simp [mapInsert, h1, mapKeys_cons] at h ⊢
        tauto
      · simp [mapInsert, h1, h2, mapKeys_cons] at h ⊢
        rcases h with h | h
        · tauto
        · rcases ih h with h | h <;> tauto

theorem sorted_mapInsert {K V : Type} [LinearOrder K] (m : List (K × V)) (k : K) (v : V)
    (h : (mapKeys m).Sorted (· < ·)) : (mapKeys (mapInsert m k v)).Sorted (· < ·) := by
  induction m with
  | nil => simp [mapInsert, mapKeys]
  | cons e rest ih =>
    rw [mapKeys_cons, List.sorted_cons] at h
    obtain ⟨hlt, hrest⟩ := h
    by_cases h1 : k < e.1
    · simp only [mapInsert, h1, if_true, mapKeys_cons, List.sorted_cons]
      refine ⟨?_, ?_⟩
      · intro b hb
        rcases List.mem_cons.mp hb with rfl | hb
        · exact h1
        · exact lt_trans h1 (hlt b hb)
      · exact ⟨hlt, hrest⟩
    · by_cases h2 : k = e.1
      · subst h2
        simp only [mapInsert, h1, if_false, if_true, mapKeys_cons, List.sorted_cons]
        exact ⟨hlt, hrest⟩
      · have h3 : e.1 < k := lt_of_le_of_ne (not_lt.mp h1) (fun hh => h2 hh.symm)
        simp only [mapInsert, h1, if_false, h2, mapKeys_cons, List.sorted_cons]
        refine ⟨?_, ih hrest⟩
        intro b hb
        rcases mapKeys_mapInsert_mem rest k b v hb with rfl | hb
        · exact h3
        · exact hlt b hb

theorem sorted_foldl_mapInsert {K V : Type} [LinearOrder K] (kvs : List (K × V))
    (m : List (K × V)) (h : (mapKeys m).Sorted (· < ·)) :
    (mapKeys (kvs.foldl (fun acc kv => mapInsert acc kv.1 kv.2) m)).Sorted (· < ·) := by
  induction kvs generalizing m with
  | nil => exact h
  | cons e rest ih => exact ih _ (sorted_mapInsert _ _ _ h)

theorem lookupKV_foldl_mapInsert {K V : Type} [LinearOrder K] (kvs : List (K × V))
    (m : List (K × V)) (k : K) :
    lookupKV (kvs.foldl (fun acc kv => mapInsert acc kv.1 kv.2) m) k =
      match assocLast kvs k with
      | some v => some v
      | none => lookupKV m k := by
  induction kvs generalizing m with
  | nil => simp [assocLast]
  | cons e rest ih =>
    simp only [List.foldl_cons, assocLast]
    rw [ih]
    cases h : assocLast rest k with
    | some v => simp
    | none =>
      by_cases hk : e.1 = k
      · subst hk
        simp [lookupKV_mapInsert_self]
      · simp [hk, lookupKV_mapInsert_ne _ _ _ _ (fun hh => hk hh.symm)]

theorem decodeItemsMap_ok {K V : Type} [LinearOrder K] (decK : ElemDec K) (decV : ElemDec V)
    (client : Option Client) (entries : List (Bytes × Bytes)) (acc m : List (K × V))
    (h : decodeItemsMap decK decV client entries acc = (Except.ok (), m)) :
    ∃ kvs : List (K × V), List.Forall₂
        (fun e kv => decK e.1 client = Except.ok kv.1 ∧ decV e.2 client = Except.ok kv.2)
        entries kvs ∧
      m = kvs.foldl (fun a kv => mapInsert a kv.1 kv.2) acc := by
  induction entries generalizing acc with
  | nil =>
    refine ⟨[], List.Forall₂.nil, ?_⟩
    have : acc = m := by simpa [decodeItemsMap] using congrArg Prod.snd h
    simp [this]
  | cons e rest ih =>
    cases hk : decK e.1 client with
    | error err => simp [decodeItemsMap, hk] at h
    | ok k =>
      cases hv : decV e.2 client with
      | error err => simp [decodeItemsMap, hk, hv] at h
      | ok v =>
        have h2 : decodeItemsMap decK decV client rest (mapInsert acc k v) =
            (Except.ok (), m) := by
          simpa [decodeItemsMap, hk, hv] using h
        obtain ⟨kvs, hf, hm⟩ := ih _ h2
        exact ⟨(k, v) :: kvs, List.Forall₂.cons ⟨hk, hv⟩ hf, by simpa using hm⟩

theorem decodeItemsMap_append_ok {K V : Type} [LinearOrder K] (decK : ElemDec K)
    (decV : ElemDec V) (client : Option Client) (fk : Bytes → K) (fv : Bytes → V)
    (pre tail : List (Bytes × Bytes)) (acc : List (K × V))
    (h : ∀ e ∈ pre, decK e.1 client = Except.ok (fk e.1) ∧ decV e.2 client = Except.ok (fv e.2)) :
    decodeItemsMap decK decV client (pre ++ tail) acc =
      decodeItemsMap decK decV client tail
        ((pre.map (fun e => (fk e.1, fv e.2))).foldl (fun a kv => mapInsert a kv.1 kv.2) acc) := by
  induction pre generalizing acc with
  | nil => simp
  | cons e pre ih =>
    obtain ⟨hk, hv⟩ := h e (by simp)
    simp only [List.cons_append, decodeItemsMap, hk, hv]
    show decodeItemsMap decK decV client (pre ++ tail) (mapInsert acc (fk e.1) (fv e.2)) = _
    rw [ih _ (fun x hx => h x (by simp [hx]))]
    simp

theorem sorted_keys_nodup {K : Type} [LinearOrder K] (l : List K)
    (h : l.Sorted (· < ·)) : l.Nodup :=
  h.imp (fun hab => ne_of_lt hab)

/-! ### Claim theorems -/

/-- C8: prior contents of a caller-provided output container are discarded
before population: for the sequence, mapping and set decoders the decode
outcome and the final container contents are identical whatever the container
previously held, so the result depends only on the input bytes (decode is not
additive). -/
theorem c8_prior_contents_discarded :
    (∀ (α : Type) (parse : ParseFn) (dec : ElemDec α) (data : Bytes)
        (client : Option Client) (p1 p2 : List α),
      decodeVector parse dec data client p1 = decodeVector parse dec data client p2) ∧
    (∀ (K V : Type) [LinearOrder K] (parse : DictParseFn) (decK : ElemDec K)
        (decV : ElemDec V) (data : Bytes) (client : Option Client) (p1 p2 : List (K × V)),
      decodeMap parse decK decV data client p1 = decodeMap parse decK decV data client p2) ∧
    (∀ (α : Type) [DecidableEq α] (parse : ParseFn) (dec : ElemDec α) (data : Bytes)
        (client : Option Client) (p1 p2 : Finset α),
      decodeSet parse dec data client p1 = decodeSet parse dec data client p2) := by
  refine ⟨fun α parse dec data client p1 p2 => rfl,
          fun K V instK parse decK decV data client p1 p2 => rfl,
          fun α instA parse dec data client p1 p2 => ?_⟩
  unfold decodeSet
  rw [Finset.filter_False, Finset.filter_False]

/-- C2 counterexample: a sequence decode whose envelope parse fails (modelled
here by a parse outcome with success flag `false` and no merged items, as
protobuf leaves behind on, e.g., a truncated tag byte) does not fail with
`DecodeFailed`: the decode returns normally with an empty output. -/
theorem c2_parse_failure_counterexample :
    decodeVector (fun _ => (false, ([] : List Bytes))) (fun b _ => Except.ok b)
      [255] none [] = (Except.ok (), []) := rfl

/-- C2 amended: the container decoders never consult the envelope parse
result: for the sequence, mapping, set and every tuple decoder, forcing the
parse success flag to `true` while keeping the merged items changes nothing.
Hence an input that cannot be parsed is not reported as `DecodeFailed`; the
decode proceeds on whatever items the (partial) parse left behind. -/
theorem c2_parse_flag_ignored :
    (∀ (α : Type) (parse : ParseFn) (dec : ElemDec α) (data : Bytes)
        (client : Option Client) (prior : List α),
      decodeVector parse dec data client prior =
        decodeVector (fun d => (true, (parse d).2)) dec data client prior) ∧
    (∀ (K V : Type) [LinearOrder K] (parse : DictParseFn) (decK : ElemDec K)
        (decV : ElemDec V) (data : Bytes) (client : Option Client) (prior : List (K × V)),
      decodeMap parse decK decV data client prior =
        decodeMap (fun d => (true, (parse d).2)) decK decV data client prior) ∧
    (∀ (α : Type) [DecidableEq α] (parse : ParseFn) (dec : ElemDec α) (data : Bytes)
        (client : Option Client) (prior : Finset α),
      decodeSet parse dec data client prior =
        decodeSet (fun d => (true, (parse d).2)) dec data client prior) ∧
    (∀ (α : Type) (parse : ParseFn) (d0 : ElemDec α) (data : Bytes)
        (client : Option Client),
      decodeTuple1 parse d0 data client =
        decodeTuple1 (fun d => (true, (parse d).2)) d0 data client) ∧
    (∀ (α β : Type) (parse : ParseFn) (d0 : ElemDec α) (d1 : ElemDec β) (data : Bytes)
        (client : Option Client),
      decodeTuple2 parse d0 d1 data client =
        decodeTuple2 (fun d => (true, (parse d).2)) d0 d1 data client) ∧
    (∀ (α β γ : Type) (parse : ParseFn) (d0 : ElemDec α) (d1 : ElemDec β) (d2 : ElemDec γ)
        (data : Bytes) (client : Option Client),
      decodeTuple3 parse d0 d1 d2 data client =
        decodeTuple3 (fun d => (true, (parse d).2)) d0 d1 d2 data client) ∧
    (∀ (α β γ δ : Type) (parse : ParseFn) (d0 : ElemDec α) (d1 : ElemDec β) (d2 : ElemDec γ)
        (d3 : ElemDec δ) (data : Bytes) (client : Option Client),
      decodeTuple4 parse d0 d1 d2 d3 data client =
        decodeTuple4 (fun d => (true, (parse d).2)) d0 d1 d2 d3 data client) ∧
    (∀ (α β γ δ ε : Type) (parse : ParseFn) (d0 : ElemDec α) (d1 : ElemDec β) (d2 : ElemDec γ)
        (d3 : ElemDec δ) (d4 : ElemDec ε) (data : Bytes) (client : Option Client),
      decodeTuple5 parse d0 d1 d2 d3 d4 data client =
        decodeTuple5 (fun d => (true, (parse d).2)) d0 d1 d2 d3 d4 data client) :=
  ⟨fun _ _ _ _ _ _ => rfl, fun _ _ _ _ _ _ _ _ _ => rfl, fun _ _ _ _ _ _ _ => rfl,
   fun _ _ _ _ _ => rfl, fun _ _ _ _ _ _ _ => rfl, fun _ _ _ _ _ _ _ _ _ => rfl,
   fun _ _ _ _ _ _ _ _ _ _ _ => rfl, fun _ _ _ _ _ _ _ _ _ _ _ _ _ => rfl⟩

/-- C6: enum decode first decodes a signed 32-bit integer via the scalar
decoder and then reinterprets that numeric value as the target enumerated
type without validating it against known enumerators: whenever the scalar
decoder yields `x`, the enum decode succeeds and surfaces exactly the raw
value `x` under the enum type — even when `x` lies outside any given set of
known enumerators — and a scalar-decoder failure propagates unchanged. -/
theorem c6_enum_unvalidated :
    ∀ (decI32 : ElemDec Int) (data : Bytes) (client : Option Client),
      (∀ (x : Int) (known : Finset Int), decI32 data client = Except.ok x → x ∉ known →
        decode_enum decI32 data client = Except.ok (EnumVal.mk x)) ∧
      (∀ e : DecodeError, decI32 data client = Except.error e →
        decode_enum decI32 data client = Except.error e) := by
  intro decI32 data client
  refine ⟨fun x known hx hnk => ?_, fun e he => ?_⟩
  · simp [decode_enum, hx]
  · simp [decode_enum, he]

/-- C6 witness: with a scalar decoder yielding 9999 — a value outside the
known enumerators {0, 1, 2} — the enum decode succeeds with raw value 9999. -/
theorem c6_enum_unvalidated_witness :
    decode_enum (fun _ _ => Except.ok 9999) [] none = Except.ok (EnumVal.mk 9999) :=
  (c6_enum_unvalidated (fun _ _ => Except.ok 9999) [] none).1 9999 {0, 1, 2} rfl (by decide)

/-- C4: a successful sequence decode yields exactly one decoded value per
envelope item, in positional order (`List.Forall₂` pairs item i with output
position i), hence preserves the element count; a successful set decode
yields exactly the finite set of the decoded item values, duplicate decoded
values collapsing to one entry. -/
theorem c4_count_order_membership :
    (∀ (α : Type) (parse : ParseFn) (dec : ElemDec α) (data : Bytes)
        (client : Option Client) (prior out : List α),
      decodeVector parse dec data client prior = (Except.ok (), out) →
      List.Forall₂ (fun b v => dec b client = Except.ok v) (parse data).2 out ∧
        out.length = (parse data).2.length) ∧
    (∀ (α : Type) [DecidableEq α] (parse : ParseFn) (dec : ElemDec α) (data : Bytes)
        (client : Option Client) (prior : Finset α) (sOut : Finset α),
      decodeSet parse dec data client prior = (Except.ok (), sOut) →
      ∃ vs : List α,
        List.Forall₂ (fun b v => dec b client = Except.ok v) (parse data).2 vs ∧
          sOut = vs.toFinset) := by
  constructor
  · intro α parse dec data client prior out h
    obtain ⟨vs, hf, hout⟩ :=
      decodeItemsVec_ok dec client (parse data).2 (List.take 0 prior) out h
    simp only [List.take_zero, List.nil_append] at hout
    subst hout
    exact ⟨hf, hf.length_eq.symm⟩
  · intro α instA parse dec data client prior sOut h
    obtain ⟨vs, hf, hout⟩ :=
      decodeItemsSet_ok dec client (parse data).2 (Finset.filter (fun _ => False) prior) sOut h
    rw [Finset.filter_False, Finset.union_empty] at hout
    exact ⟨vs, hf, hout⟩

/-- C4 witness: decoding the 3-item envelope of items [1], [2], [1] as a
sequence with the identity element decoder gives back the three items in
order, and decoding it as a set gives the two-element set of decoded values,
the duplicate collapsing to one entry. -/
theorem c4_count_order_membership_witness :
    (List.Forall₂ (fun b v => (Except.ok b : Except DecodeError Bytes) = Except.ok v)
        [[1], [2], [1]] [[1], [2], [1]] ∧
      ([[1], [2], [1]] : List Bytes).length = ([[1], [2], [1]] : List Bytes).length) ∧
    ∃ vs : List Bytes,
      List.Forall₂ (fun b v => (Except.ok b : Except DecodeError Bytes) = Except.ok v)
        [[1], [2], [1]] vs ∧ ({[2], [1]} : Finset Bytes) = vs.toFinset :=
  ⟨(c4_count_order_membership.1 Bytes (fun _ => (true, [[1], [2], [1]]))
      (fun b _ => Except.ok b) [] none [] [[1], [2], [1]] rfl),
   (c4_count_order_membership.2 Bytes (fun _ => (true, [[1], [2], [1]]))
      (fun b _ => Except.ok b) [] none ∅ {[2], [1]} rfl)⟩

theorem forall₂_mem_right {α β : Type} {R : α → β → Prop} {l1 : List α} {l2 : List β}
    (h : List.Forall₂ R l1 l2) : ∀ b ∈ l2, ∃ a ∈ l1, R a b := by
  induction h with
  | nil => intro b hb; cases hb
  | cons hr ht ih =>
    intro b hb
    rcases List.mem_cons.mp hb with rfl | hb
    · exact ⟨_, by simp, hr⟩
    · obtain ⟨a, ha, hab⟩ := ih b hb
      exact ⟨a, by simp [ha], hab⟩

/-- C7: an object-handle decode returns an Object Reference whose id is the
unsigned 64-bit integer produced by the scalar decoder and whose client field
is exactly the caller-supplied client pointer, unchanged — including the null
pointer, modelled as `none`; moreover the sequence, mapping, set and tuple
decoders hand exactly that same pointer to every element decoder (so the
client slot they are invoked with is irrelevant once the element decoders are
fixed at the caller's pointer), and every object decoded inside a sequence
carries the caller's pointer. -/
theorem c7_object_client :
    (∀ (decU64 : ElemDec Nat) (data : Bytes) (client : Option Client) (i : Nat),
      decU64 data client = Except.ok i →
      decodeObject decU64 data client = Except.ok (Object.mk i client)) ∧
    (∀ (α : Type) (parse : ParseFn) (dec : ElemDec α) (data : Bytes)
        (c c2 : Option Client) (prior : List α),
      decodeVector parse (fun b _ => dec b c) data c2 prior =
        decodeVector parse dec data c prior) ∧
    (∀ (K V : Type) [LinearOrder K] (parse : DictParseFn) (decK : ElemDec K)
        (decV : ElemDec V) (data : Bytes) (c c2 : Option Client) (prior : List (K × V)),
      decodeMap parse (fun b _ => decK b c) (fun b _ => decV b c) data c2 prior =
        decodeMap parse decK decV data c prior) ∧
    (∀ (α : Type) [DecidableEq α] (parse : ParseFn) (dec : ElemDec α) (data : Bytes)
        (c c2 : Option Client) (prior : Finset α),
      decodeSet parse (fun b _ => dec b c) data c2 prior =
        decodeSet parse dec data c prior) ∧
    (∀ (α β : Type) (parse : ParseFn) (d0 : ElemDec α) (d1 : ElemDec β) (data : Bytes)
        (c c2 : Option Client),
      decodeTuple2 parse (fun b _ => d0 b c) (fun b _ => d1 b c) data c2 =
        decodeTuple2 parse d0 d1 data c) ∧
    (∀ (parse : ParseFn) (decU64 : ElemDec Nat) (data : Bytes) (c : Option Client)
        (prior out : List Object),
      decodeVector parse (fun b cl => decodeObject decU64 b cl) data c prior =
        (Except.ok (), out) →
      ∀ o ∈ out, o.client = c) := by
  refine ⟨?_, ?_, ?_, ?_, ?_, ?_⟩
  · intro decU64 data client i h
    simp [decodeObject, h]
  · intro α parse dec data c c2 prior
    unfold decodeVector
    rw [decodeItemsVec_client]
  · intro K V instK parse decK decV data c c2 prior
    unfold decodeMap
    rw [decodeItemsMap_client]
  · intro α instA parse dec data c c2 prior
    unfold decodeSet
    rw [decodeItemsSet_client]
  · intro α β parse d0 d1 data c c2
    rfl
  · intro parse decU64 data c prior out h o ho
    obtain ⟨vs, hf, hout⟩ :=
      decodeItemsVec_ok _ c (parse data).2 (List.take 0 prior) out h
    simp only [List.take_zero, List.nil_append] at hout
    subst hout
    obtain ⟨b, hb, hobj⟩ := forall₂_mem_right hf o ho
    cases hu : decU64 b c with
    | error e => rw [decodeObject, hu] at hobj; cases hobj
    | ok i =>
      rw [decodeObject, hu] at hobj
      cases hobj
      rfl

/-- C7 witness: decoding an object with a null client pointer yields the
object with `none` as its client, and every object decoded inside a concrete
one-element sequence carries the caller's (non-null) pointer. -/
theorem c7_object_client_witness :
    decodeObject (fun _ _ => Except.ok 42) [] none = Except.ok (Object.mk 42 none) ∧
    ∀ o ∈ [Object.mk 7 (some (Client.mk 3))], o.client = some (Client.mk 3) :=
  ⟨c7_object_client.1 (fun _ _ => Except.ok 42) [] none 42 rfl,
   c7_object_client.2.2.2.2.2 (fun _ => (true, [[9]])) (fun _ _ => Except.ok 7) []
     (some (Client.mk 3)) [] [Object.mk 7 (some (Client.mk 3))] rfl⟩

/-- C3 counterexample: a sequence decode that fails while decoding the second
item leaves the caller's vector cleared and partially populated with the first
decoded item: the failing decode is visible as the container holding [[1]] —
neither its prior contents [[9]] nor a rolled-back empty state is guaranteed,
so a partially populated output is visible to the caller. -/
theorem c3_partial_output_counterexample :
    decodeVector (fun _ => (true, [[1], [2]]))
        (fun b _ => if b = [2] then Except.error DecodeError.decodeFailed else Except.ok b)
        [] none [[9]] = (Except.error DecodeError.decodeFailed, [[1]]) ∧
    ([[1]] : List Bytes) ≠ [] ∧ ([[1]] : List Bytes) ≠ [[9]] :=
  ⟨rfl, by decide, by decide⟩

/-- C3 amended: a failing container decode propagates the failure to the
caller and yields no partial-success return value, but it is not atomic in its
output: the caller-provided container has been cleared and is left partially
populated with the elements decoded before the failure, visibly to the caller.
Precisely, if the envelope items split as `pre ++ bad :: rest` with every item
of `pre` decoding successfully and `bad` failing with error `e`, the sequence
decode returns error `e` with the vector holding exactly the decoded `pre`;
the analogous statement holds for the mapping decoder when an entry's key
fails to decode. -/
theorem c3_failure_partial_output :
    (∀ (α : Type) (parse : ParseFn) (dec : ElemDec α) (data : Bytes)
        (client : Option Client) (prior : List α) (f : Bytes → α)
        (pre rest : List Bytes) (bad : Bytes) (e : DecodeError),
      (parse data).2 = pre ++ bad :: rest →
      (∀ b ∈ pre, dec b client = Except.ok (f b)) →
      dec bad client = Except.error e →
      decodeVector parse dec data client prior = (Except.error e, pre.map f)) ∧
    (∀ (K V : Type) [LinearOrder K] (parse : DictParseFn) (decK : ElemDec K)
        (decV : ElemDec V) (data : Bytes) (client : Option Client)
        (prior : List (K × V)) (fk : Bytes → K) (fv : Bytes → V)
        (pre rest : List (Bytes × Bytes)) (bad : Bytes × Bytes) (e : DecodeError),
      (parse data).2 = pre ++ bad :: rest →
      (∀ x ∈ pre, decK x.1 client = Except.ok (fk x.1) ∧
        decV x.2 client = Except.ok (fv x.2)) →
      decK bad.1 client = Except.error e →
      decodeMap parse decK decV data client prior =
        (Except.error e,
          (pre.map (fun x => (fk x.1, fv x.2))).foldl
            (fun a kv => mapInsert a kv.1 kv.2) [])) := by
  constructor
  · intro α parse dec data client prior f pre rest bad e hitems hpre hbad
    unfold decodeVector
    rw [hitems, List.take_zero,
      decodeItemsVec_append_ok dec client f pre (bad :: rest) [] hpre]
    simp [decodeItemsVec, hbad]
  · intro K V instK parse decK decV data client prior fk fv pre rest bad e hitems hpre hbad
    unfold decodeMap
    rw [hitems, List.take_zero,
      decodeItemsMap_append_ok decK decV client fk fv pre (bad :: rest) [] hpre]
    simp [decodeItemsMap, hbad]

/-- C3 amended witness: with three envelope items of which the third fails to
decode, the sequence decode returns the failure with the caller's vector
holding the two successfully decoded items. -/
theorem c3_failure_partial_output_witness :
    decodeVector (fun _ => (true, [[1], [2], [3]]))
        (fun b _ => if b = [3] then Except.error DecodeError.decodeFailed else Except.ok b)
        [] none [] = (Except.error DecodeError.decodeFailed, [[1], [2]]) := by
  have h := c3_failure_partial_output.1 Bytes (fun _ => (true, [[1], [2], [3]]))
      (fun b _ => if b = [3] then Except.error DecodeError.decodeFailed else Except.ok b)
      [] none [] (fun b => b) [[1], [2]] [] [3] DecodeError.decodeFailed rfl
      (by intro b hb; fin_cases hb <;> rfl) rfl
  simpa using h

/-- C1 counterexample: decoding an arity-1 tuple from an envelope holding two
items — an item count differing from the declared arity — succeeds instead of
failing with `DecodeFailed`. -/
theorem c1_tuple_arity_counterexample :
    ((fun (_ : Bytes) => (true, [([0] : Bytes), [1]])) []).2.length = 2 ∧
    decodeTuple1 (fun _ => (true, [[0], [1]])) (fun b _ => Except.ok b) [] none =
      Except.ok [0] :=
  ⟨rfl, rfl⟩

/-- C1 amended: the tuple decoders of declared arity N (1 to 5) perform no
arity check and never fail with `DecodeFailed` on an item-count mismatch:
with element decoders that always succeed, an envelope with more than N items
decodes successfully (the surplus is ignored), while an envelope with fewer
than N items fails with an out-of-range access to the envelope's repeated
item field (a bounds-assertion failure of the envelope layer), not with
`DecodeFailed`. -/
theorem c1_tuple_arity_unchecked :
    (∀ (α : Type) (parse : ParseFn) (d0 : ElemDec α) (f0 : Bytes → α) (data : Bytes)
        (client : Option Client), (∀ b, d0 b client = Except.ok (f0 b)) →
      (((parse data).2.length < 1 →
        decodeTuple1 parse d0 data client = Except.error DecodeError.indexOutOfRange) ∧
       (1 < (parse data).2.length →
        ∃ v, decodeTuple1 parse d0 data client = Except.ok v))) ∧
    (∀ (α β : Type) (parse : ParseFn) (d0 : ElemDec α) (d1 : ElemDec β)
        (f0 : Bytes → α) (f1 : Bytes → β) (data : Bytes) (client : Option Client),
      (∀ b, d0 b client = Except.ok (f0 b)) → (∀ b, d1 b client = Except.ok (f1 b)) →
      (((parse data).2.length < 2 →
        decodeTuple2 parse d0 d1 data client = Except.error DecodeError.indexOutOfRange) ∧
       (2 < (parse data).2.length →
        ∃ v, decodeTuple2 parse d0 d1 data client = Except.ok v))) ∧
    (∀ (α β γ : Type) (parse : ParseFn) (d0 : ElemDec α) (d1 : ElemDec β) (d2 : ElemDec γ)
        (f0 : Bytes → α) (f1 : Bytes → β) (f2 : Bytes → γ) (data : Bytes)
        (client : Option Client),
      (∀ b, d0 b client = Except.ok (f0 b)) → (∀ b, d1 b client = Except.ok (f1 b)) →
      (∀ b, d2 b client = Except.ok (f2 b)) →
      (((parse data).2.length < 3 →
        decodeTuple3 parse d0 d1 d2 data client = Except.error DecodeError.indexOutOfRange) ∧
       (3 < (parse data).2.length →
        ∃ v, decodeTuple3 parse d0 d1 d2 data client = Except.ok v))) ∧
    (∀ (α β γ δ : Type) (parse : ParseFn) (d0 : ElemDec α) (d1 : ElemDec β) (d2 : ElemDec γ)
        (d3 : ElemDec δ) (f0 : Bytes → α) (f1 : Bytes → β) (f2 : Bytes → γ) (f3 : Bytes → δ)
        (data : Bytes) (client : Option Client),
      (∀ b, d0 b client = Except.ok (f0 b)) → (∀ b, d1 b client = Except.ok (f1 b)) →
      (∀ b, d2 b client = Except.ok (f2 b)) → (∀ b, d3 b client = Except.ok (f3 b)) →
      (((parse data).2.length < 4 →
        decodeTuple4 parse d0 d1 d2 d3 data client =
          Except.error DecodeError.indexOutOfRange) ∧
       (4 < (parse data).2.length →
        ∃ v, decodeTuple4 parse d0 d1 d2 d3 data client = Except.ok v))) ∧
    (∀ (α β γ δ ε : Type) (parse : ParseFn) (d0 : ElemDec α) (d1 : ElemDec β)
        (d2 : ElemDec γ) (d3 : ElemDec δ) (d4 : ElemDec ε) (f0 : Bytes → α) (f1 : Bytes → β)
        (f2 : Bytes → γ) (f3 : Bytes → δ) (f4 : Bytes → ε) (data : Bytes)
        (client : Option Client),
      (∀ b, d0 b client = Except.ok (f0 b)) → (∀ b, d1 b client = Except.ok (f1 b)) →
      (∀ b, d2 b client = Except.ok (f2 b)) → (∀ b, d3 b client = Except.ok (f3 b)) →
      (∀ b, d4 b client = Except.ok (f4 b)) →
      (((parse data).2.length < 5 →
        decodeTuple5 parse d0 d1 d2 d3 d4 data client =
          Except.error DecodeError.indexOutOfRange) ∧
       (5 < (parse data).2.length →
        ∃ v, decodeTuple5 parse d0 d1 d2 d3 d4 data client = Except.ok v))) := by
  refine ⟨?_, ?_, ?_, ?_, ?_⟩
  · intro α parse d0 f0 data client h0
    constructor
    · intro hlen
      rcases hitems : (parse data).2 with _ | ⟨b0, rest⟩
      · simp [decodeTuple1, hitems, pbGet, Bind.bind, Except.bind]
      · rw [hitems] at hlen; simp only [List.length_cons] at hlen; omega
    · intro hlen
      rcases hitems : (parse data).2 with _ | ⟨b0, rest⟩
      · rw [hitems] at hlen; simp only [List.length_nil] at hlen; omega
      · exact ⟨f0 b0, by simp [decodeTuple1, hitems, pbGet, h0, Bind.bind, Except.bind]⟩
  · intro α β parse d0 d1 f0 f1 data client h0 h1
    constructor
    · intro hlen
      rcases hitems : (parse data).2 with _ | ⟨b0, _ | ⟨b1, rest⟩⟩
      · simp [decodeTuple2, hitems, pbGet, Bind.bind, Except.bind]
      · simp [decodeTuple2, hitems, pbGet, h0, Bind.bind, Except.bind]
      · rw [hitems] at hlen; simp only [List.length_cons] at hlen; omega
    · intro hlen
      rcases hitems : (parse data).2 with _ | ⟨b0, _ | ⟨b1, rest⟩⟩
      · rw [hitems] at hlen; simp only [List.length_nil] at hlen; omega
      · rw [hitems] at hlen; simp only [List.length_cons, List.length_nil] at hlen; omega
      · exact ⟨(f0 b0, f1 b1),
          by simp [decodeTuple2, hitems, pbGet, h0, h1, Bind.bind, Except.bind]⟩
  · intro α β γ parse d0 d1 d2 f0 f1 f2 data client h0 h1 h2
    constructor
    · intro hlen
      rcases hitems : (parse data).2 with _ | ⟨b0, _ | ⟨b1, _ | ⟨b2, rest⟩⟩⟩
      · simp [decodeTuple3, hitems, pbGet, Bind.bind, Except.bind]
      · simp [decodeTuple3, hitems, pbGet, h0, Bind.bind, Except.bind]
      · simp [decodeTuple3, hitems, pbGet, h0, h1, Bind.bind, Except.bind]
      · rw [hitems] at hlen; simp only [List.length_cons] at hlen; omega
    · intro hlen
      rcases hitems : (parse data).2 with _ | ⟨b0, _ | ⟨b1, _ | ⟨b2, rest⟩⟩⟩
      · rw [hitems] at hlen; simp only [List.length_nil] at hlen; omega
      · rw [hitems] at hlen; simp only [List.length_cons, List.length_nil] at hlen; omega
      · rw [hitems] at hlen; simp only [List.length_cons, List.length_nil] at hlen; omega
      · exact ⟨(f0 b0, f1 b1, f2 b2),
          by simp [decodeTuple3, hitems, pbGet, h0, h1, h2, Bind.bind, Except.bind]⟩
  · intro α β γ δ parse d0 d1 d2 d3 f0 f1 f2 f3 data client h0 h1 h2 h3
    constructor
    · intro hlen
      rcases hitems : (parse data).2 with _ | ⟨b0, _ | ⟨b1, _ | ⟨b2, _ | ⟨b3, rest⟩⟩⟩⟩
      · simp [decodeTuple4, hitems, pbGet, Bind.bind, Except.bind]
      · simp [decodeTuple4, hitems, pbGet, h0, Bind.bind, Except.bind]
      · simp [decodeTuple4, hitems, pbGet, h0, h1, Bind.bind, Except.bind]
      · simp [decodeTuple4, hitems, pbGet, h0, h1, h2, Bind.bind, Except.bind]
      · rw [hitems] at hlen; simp only [List.length_cons] at hlen; omega
    · intro hlen
      rcases hitems : (parse data).2 with _ | ⟨b0, _ | ⟨b1, _ | ⟨b2, _ | ⟨b3, rest⟩⟩⟩⟩
      · rw [hitems] at hlen; simp only [List.length_nil] at hlen; omega
      · rw [hitems] at hlen; simp only [List.length_cons, List.length_nil] at hlen; omega
      · rw [hitems] at hlen; simp only [List.length_cons, List.length_nil] at hlen; omega
      · rw [hitems] at hlen; simp only [List.length_cons, List.length_nil] at hlen; omega
      · exact ⟨(f0 b0, f1 b1, f2 b2, f3 b3),
          by simp [decodeTuple4, hitems, pbGet, h0, h1, h2, h3, Bind.bind, Except.bind]⟩
  · intro α β γ δ ε parse d0 d1 d2 d3 d4 f0 f1 f2 f3 f4 data client h0 h1 h2 h3 h4
    constructor
    · intro hlen
      rcases hitems : (parse data).2 with
        _ | ⟨b0, _ | ⟨b1, _ | ⟨b2, _ | ⟨b3, _ | ⟨b4, rest⟩⟩⟩⟩⟩
      · simp [decodeTuple5, hitems, pbGet, Bind.bind, Except.bind]
      · simp [decodeTuple5, hitems, pbGet, h0, Bind.bind, Except.bind]
      · simp [decodeTuple5, hitems, pbGet, h0, h1, Bind.bind, Except.bind]
      · simp [decodeTuple5, hitems, pbGet, h0, h1, h2, Bind.bind, Except.bind]
      · simp [decodeTuple5, hitems, pbGet, h0, h1, h2, h3, Bind.bind, Except.bind]
      · rw [hitems] at hlen; simp only [List.length_cons] at hlen; omega
    · intro hlen
      rcases hitems : (parse data).2 with
        _ | ⟨b0, _ | ⟨b1, _ | ⟨b2, _ | ⟨b3, _ | ⟨b4, rest⟩⟩⟩⟩⟩
      · rw [hitems] at hlen; simp only [List.length_nil] at hlen; omega
      · rw [hitems] at hlen; simp only [List.length_cons, List.length_nil] at hlen; omega
      · rw [hitems] at hlen; simp only [List.length_cons, List.length_nil] at hlen; omega
      · rw [hitems] at hlen; simp only [List.length_cons, List.length_nil] at hlen; omega
      · rw [hitems] at hlen; simp only [List.length_cons, List.length_nil] at hlen; omega
      · exact ⟨(f0 b0, f1 b1, f2 b2, f3 b3, f4 b4),
          by simp [decodeTuple5, hitems, pbGet, h0, h1, h2, h3, h4, Bind.bind, Except.bind]⟩

/-- C1 amended witness: with the identity element decoder, an arity-1 tuple
decode on an empty envelope fails with the out-of-range item access, and on a
two-item envelope it succeeds. -/
theorem c1_tuple_arity_unchecked_witness :
    decodeTuple1 (fun _ => (true, ([] : List Bytes))) (fun b _ => Except.ok b) [] none =
      Except.error DecodeError.indexOutOfRange ∧
    ∃ v, decodeTuple1 (fun _ => (true, [[5], [6]])) (fun b _ => Except.ok b) [] none =
      Except.ok v :=
  ⟨(c1_tuple_arity_unchecked.1 Bytes (fun _ => (true, [])) (fun b _ => Except.ok b)
      (fun b => b) [] none (fun _ => rfl)).1 (by decide),
   (c1_tuple_arity_unchecked.1 Bytes (fun _ => (true, [[5], [6]])) (fun b _ => Except.ok b)
      (fun b => b) [] none (fun _ => rfl)).2 (by decide)⟩

/-- C10: the tuple decoders of declared arity N read only the envelope items
at positions 0 through N-1: whenever the envelope items start with N items
that each decode successfully, the decode succeeds with exactly those N
decoded values, for an arbitrary (possibly non-empty) list of surplus items
after them — so an envelope with more than N items decodes successfully and
the surplus has no effect on the resulting tuple. -/
theorem c10_tuple_surplus_ignored :
    (∀ (α : Type) (parse : ParseFn) (d0 : ElemDec α) (data : Bytes)
        (client : Option Client) (b0 : Bytes) (rest : List Bytes) (v0 : α),
      (parse data).2 = b0 :: rest → d0 b0 client = Except.ok v0 →
      decodeTuple1 parse d0 data client = Except.ok v0) ∧
    (∀ (α β : Type) (parse : ParseFn) (d0 : ElemDec α) (d1 : ElemDec β) (data : Bytes)
        (client : Option Client) (b0 b1 : Bytes) (rest : List Bytes) (v0 : α) (v1 : β),
      (parse data).2 = b0 :: b1 :: rest →
      d0 b0 client = Except.ok v0 → d1 b1 client = Except.ok v1 →
      decodeTuple2 parse d0 d1 data client = Except.ok (v0, v1)) ∧
    (∀ (α β γ : Type) (parse : ParseFn) (d0 : ElemDec α) (d1 : ElemDec β) (d2 : ElemDec γ)
        (data : Bytes) (client : Option Client) (b0 b1 b2 : Bytes) (rest : List Bytes)
        (v0 : α) (v1 : β) (v2 : γ),
      (parse data).2 = b0 :: b1 :: b2 :: rest →
      d0 b0 client = Except.ok v0 → d1 b1 client = Except.ok v1 →
      d2 b2 client = Except.ok v2 →
      decodeTuple3 parse d0 d1 d2 data client = Except.ok (v0, v1, v2)) ∧
    (∀ (α β γ δ : Type) (parse : ParseFn) (d0 : ElemDec α) (d1 : ElemDec β) (d2 : ElemDec γ)
        (d3 : ElemDec δ) (data : Bytes) (client : Option Client) (b0 b1 b2 b3 : Bytes)
        (rest : List Bytes) (v0 : α) (v1 : β) (v2 : γ) (v3 : δ),
      (parse data).2 = b0 :: b1 :: b2 :: b3 :: rest →
      d0 b0 client = Except.ok v0 → d1 b1 client = Except.ok v1 →
      d2 b2 client = Except.ok v2 → d3 b3 client = Except.ok v3 →
      decodeTuple4 parse d0 d1 d2 d3 data client = Except.ok (v0, v1, v2, v3)) ∧
    (∀ (α β γ δ ε : Type) (parse : ParseFn) (d0 : ElemDec α) (d1 : ElemDec β)
        (d2 : ElemDec γ) (d3 : ElemDec δ) (d4 : ElemDec ε) (data : Bytes)
        (client : Option Client) (b0 b1 b2 b3 b4 : Bytes) (rest : List Bytes)
        (v0 : α) (v1 : β) (v2 : γ) (v3 : δ) (v4 : ε),
      (parse data).2 = b0 :: b1 :: b2 :: b3 :: b4 :: rest →
      d0 b0 client = Except.ok v0 → d1 b1 client = Except.ok v1 →
      d2 b2 client = Except.ok v2 → d3 b3 client = Except.ok v3 →
      d4 b4 client = Except.ok v4 →
      decodeTuple5 parse d0 d1 d2 d3 d4 data client = Except.ok (v0, v1, v2, v3, v4)) := by
  refine ⟨?_, ?_, ?_, ?_, ?_⟩
  · intro α parse d0 data client b0 rest v0 hitems h0
    simp [decodeTuple1, hitems, pbGet, h0, Bind.bind, Except.bind]
  · intro α β parse d0 d1 data client b0 b1 rest v0 v1 hitems h0 h1
    simp [decodeTuple2, hitems, pbGet, h0, h1, Bind.bind, Except.bind]
  · intro α β γ parse d0 d1 d2 data client b0 b1 b2 rest v0 v1 v2 hitems h0 h1 h2
    simp [decodeTuple3, hitems, pbGet, h0, h1, h2, Bind.bind, Except.bind]
  · intro α β γ δ parse d0 d1 d2 d3 data client b0 b1 b2 b3 rest v0 v1 v2 v3
      hitems h0 h1 h2 h3
    simp [decodeTuple4, hitems, pbGet, h0, h1, h2, h3, Bind.bind, Except.bind]
  · intro α β γ δ ε parse d0 d1 d2 d3 d4 data client b0 b1 b2 b3 b4 rest v0 v1 v2 v3 v4
      hitems h0 h1 h2 h3 h4
    simp [decodeTuple5, hitems, pbGet, h0, h1, h2, h3, h4, Bind.bind, Except.bind]

/-- C10 witness: on a concrete six-item envelope, each tuple decoder of arity
1 to 5 succeeds with the decoded values of the first N items, ignoring the
surplus items. -/
theorem c10_tuple_surplus_ignored_witness :
    decodeTuple1 (fun _ => (true, [[0], [1], [2], [3], [4], [5]]))
        (fun b _ => Except.ok b) [] none = Except.ok [0] ∧
    decodeTuple2 (fun _ => (true, [[0], [1], [2], [3], [4], [5]]))
        (fun b _ => Except.ok b) (fun b _ => Except.ok b) [] none =
      Except.ok ([0], [1]) ∧
    decodeTuple3 (fun _ => (true, [[0], [1], [2], [3], [4], [5]]))
        (fun b _ => Except.ok b) (fun b _ => Except.ok b) (fun b _ => Except.ok b) [] none =
      Except.ok ([0], [1], [2]) ∧
    decodeTuple4 (fun _ => (true, [[0], [1], [2], [3], [4], [5]]))
        (fun b _ => Except.ok b) (fun b _ => Except.ok b) (fun b _ => Except.ok b)
        (fun b _ => Except.ok b) [] none = Except.ok ([0], [1], [2], [3]) ∧
    decodeTuple5 (fun _ => (true, [[0], [1], [2], [3], [4], [5]]))
        (fun b _ => Except.ok b) (fun b _ => Except.ok b) (fun b _ => Except.ok b)
        (fun b _ => Except.ok b) (fun b _ => Except.ok b) [] none =
      Except.ok ([0], [1], [2], [3], [4]) :=
  ⟨c10_tuple_surplus_ignored.1 Bytes (fun _ => (true, [[0], [1], [2], [3], [4], [5]]))
      (fun b _ => Except.ok b) [] none [0] [[1], [2], [3], [4], [5]] [0] rfl rfl,
   c10_tuple_surplus_ignored.2.1 Bytes Bytes (fun _ => (true, [[0], [1], [2], [3], [4], [5]]))
      (fun b _ => Except.ok b) (fun b _ => Except.ok b) [] none [0] [1]
      [[2], [3], [4], [5]] [0] [1] rfl rfl rfl,
   c10_tuple_surplus_ignored.2.2.1 Bytes Bytes Bytes
      (fun _ => (true, [[0], [1], [2], [3], [4], [5]]))
      (fun b _ => Except.ok b) (fun b _ => Except.ok b) (fun b _ => Except.ok b) [] none
      [0] [1] [2] [[3], [4], [5]] [0] [1] [2] rfl rfl rfl rfl,
   c10_tuple_surplus_ignored.2.2.2.1 Bytes Bytes Bytes Bytes
      (fun _ => (true, [[0], [1], [2], [3], [4], [5]]))
      (fun b _ => Except.ok b) (fun b _ => Except.ok b) (fun b _ => Except.ok b)
      (fun b _ => Except.ok b) [] none [0] [1] [2] [3] [[4], [5]] [0] [1] [2] [3]
      rfl rfl rfl rfl rfl,
   c10_tuple_surplus_ignored.2.2.2.2 Bytes Bytes Bytes Bytes Bytes
      (fun _ => (true, [[0], [1], [2], [3], [4], [5]]))
      (fun b _ => Except.ok b) (fun b _ => Except.ok b) (fun b _ => Except.ok b)
      (fun b _ => Except.ok b) (fun b _ => Except.ok b) [] none [0] [1] [2] [3] [4] [[5]]
      [0] [1] [2] [3] [4] rfl rfl rfl rfl rfl rfl⟩

theorem varintEncode_unfold (m : Nat) :
    varintEncode m = if m < 128 then [m] else (m % 128 + 128) :: varintEncode (m / 128) := by
  rw [varintEncode]

theorem svpLoop_varint (n : Nat) : ∀ (rest : Bytes) (shift acc pos : Nat),
    svpLoop (varintEncode n ++ rest) shift acc pos =
      some ((acc + n <<< shift) % 2 ^ 32, pos + (varintEncode n).length) := by
  induction n using Nat.strong_induction_on with
  | _ n ih =>
    intro rest shift acc pos
    by_cases h : n < 128
    · rw [varintEncode_unfold n]
      simp [h, svpLoop]
    · rw [varintEncode_unfold n]
      simp only [h, if_false, List.cons_append, List.length_cons]
      have hb : ¬ (n % 128 + 128 < 128) := by omega
      simp only [svpLoop, hb, if_false]
      have hbm : (n % 128 + 128) % 128 = n % 128 := by omega
      rw [hbm]
      rw [ih (n / 128) (Nat.div_lt_self (by omega) (by omega)) rest (shift + 7)
        (acc + (n % 128) <<< shift) (pos + 1)]
      have h27 : (2 : Nat) ^ 7 = 128 := by norm_num
      have hval : acc + (n % 128) <<< shift + (n / 128) <<< (shift + 7) =
          acc + n <<< shift := by
        simp only [Nat.shiftLeft_eq, pow_add, h27]
        have hmd : n % 128 + 128 * (n / 128) = n := Nat.mod_add_div n 128
        calc acc + n % 128 * 2 ^ shift + n / 128 * (2 ^ shift * 128)
            = acc + (n % 128 + 128 * (n / 128)) * 2 ^ shift := by ring
          _ = acc + n * 2 ^ shift := by rw [hmd]
      rw [hval]
      simp only [Option.some.injEq, Prod.mk.injEq]
      exact ⟨trivial, by omega⟩

set_option maxRecDepth 4000 in
/-- C9: the size-and-position scan on a buffer beginning with the (reference)
varint encoding of any value n returns the decoded value (as a uint32) and the
byte offset immediately following the length prefix; the varint encoding of
300 is the two bytes 172, 2, and on those two bytes followed by 300 zero
payload bytes the scan returns value 300 and offset 2; the delimited decode
succeeds on that full buffer (for any schema-layer parser that accepts the
payload) and fails with `DecodeFailed` when only 299 payload bytes follow the
prefix, whatever the schema-layer parser. -/
theorem c9_size_scan_delimited :
    (∀ (n : Nat) (rest : Bytes),
      decode_size_and_position (varintEncode n ++ rest) =
        some (n % 2 ^ 32, (varintEncode n).length)) ∧
    varintEncode 300 = [172, 2] ∧
    decode_size_and_position ((172 : Nat) :: 2 :: List.replicate 300 0) = some (300, 2) ∧
    (∀ msgParse : Bytes → Bool, msgParse (List.replicate 300 0) = true →
      decode_delimited msgParse ((172 : Nat) :: 2 :: List.replicate 300 0) = Except.ok ()) ∧
    (∀ msgParse : Bytes → Bool,
      decode_delimited msgParse ((172 : Nat) :: 2 :: List.replicate 299 0) =
        Except.error DecodeError.decodeFailed) := by
  have hscan : decode_size_and_position ((172 : Nat) :: 2 :: List.replicate 300 0) =
      some (300, 2) := rfl
  have hscan299 : decode_size_and_position ((172 : Nat) :: 2 :: List.replicate 299 0) =
      some (300, 2) := rfl
  refine ⟨?_, ?_, hscan, ?_, ?_⟩
  · intro n rest
    unfold decode_size_and_position
    rw [svpLoop_varint n rest 0 0 0]
    simp [Nat.shiftLeft_eq]
  · rw [varintEncode_unfold 300]
    norm_num
    rw [varintEncode_unfold 2]
    norm_num
  · intro msgParse hm
    unfold decode_delimited
    rw [hscan]
    simp only [delimitedStep]
    have hc : ¬ (((172 : Nat) :: 2 :: List.replicate 300 0).length - 2 < 300) := by
      simp only [List.length_cons, List.length_replicate]
      omega
    rw [if_neg hc]
    have hdt : (((172 : Nat) :: 2 :: List.replicate 300 0).drop 2).take 300 =
        List.replicate 300 0 := by
      show (List.replicate 300 0).take 300 = List.replicate 300 0
      simp [List.take_replicate]
    rw [hdt, hm]
    rfl
  · intro msgParse
    unfold decode_delimited
    rw [hscan299]
    simp only [delimitedStep]
    have hc : ((172 : Nat) :: 2 :: List.replicate 299 0).length - 2 < 300 := by
      simp only [List.length_cons, List.length_replicate]
      omega
    rw [if_pos hc]

/-- C9 witness: the delimited decode of the concrete buffer, with a
schema-layer parser accepting the payload, succeeds. -/
theorem c9_size_scan_delimited_witness :
    decode_delimited (fun _ => true) ((172 : Nat) :: 2 :: List.replicate 300 0) =
      Except.ok () :=
  c9_size_scan_delimited.2.2.2.1 (fun _ => true) rfl

/-- C5: a successful mapping decode decodes each entry's key and value
independently — the key from the entry's key bytes and the value from its
value bytes, paired positionally by `List.Forall₂` — and the resulting
dictionary is the left fold of `dictionary[key] = value` insertions over the
decoded pairs; consequently its keys are unique (exactly one entry per
decoded key) and looking up any key yields the value of the last entry that
decoded to that key. -/
theorem c5_map_last_seen_wins :
    ∀ (K V : Type) [LinearOrder K] (parse : DictParseFn) (decK : ElemDec K)
      (decV : ElemDec V) (data : Bytes) (client : Option Client)
      (prior m : List (K × V)),
      decodeMap parse decK decV data client prior = (Except.ok (), m) →
      ∃ kvs : List (K × V),
        List.Forall₂ (fun e kv => decK e.1 client = Except.ok kv.1 ∧
          decV e.2 client = Except.ok kv.2) (parse data).2 kvs ∧
        m = kvs.foldl (fun a kv => mapInsert a kv.1 kv.2) [] ∧
        (mapKeys m).Nodup ∧
        ∀ k, lookupKV m k = assocLast kvs k := by
  intro K V instK parse decK decV data client prior m h
  obtain ⟨kvs, hf, hm⟩ :=
    decodeItemsMap_ok decK decV client (parse data).2 (List.take 0 prior) m h
  rw [List.take_zero] at hm
  refine ⟨kvs, hf, hm, ?_, ?_⟩
  · rw [hm]
    refine sorted_keys_nodup _ (sorted_foldl_mapInsert kvs [] ?_)
    rw [mapKeys_nil]
    exact List.sorted_nil
  · intro k
    rw [hm, lookupKV_foldl_mapInsert]
    cases assocLast kvs k <;> simp [lookupKV]

/-- C5 witness: decoding three dictionary entries whose keys decode to 1, 2, 1
(a duplicate key) with values 10, 20, 30 yields a dictionary with exactly the
two keys 1 and 2, where key 1 maps to 30, the last-seen value. -/
theorem c5_map_last_seen_wins_witness :
    ∃ kvs : List (Nat × Nat),
      List.Forall₂ (fun (e : Bytes × Bytes) (kv : Nat × Nat) =>
          (Except.ok e.1.headI : Except DecodeError Nat) = Except.ok kv.1 ∧
          (Except.ok e.2.headI : Except DecodeError Nat) = Except.ok kv.2)
        [([1], [10]), ([2], [20]), ([1], [30])] kvs ∧
      ([(1, 30), (2, 20)] : List (Nat × Nat)) =
        kvs.foldl (fun a kv => mapInsert a kv.1 kv.2) [] ∧
      (mapKeys ([(1, 30), (2, 20)] : List (Nat × Nat))).Nodup ∧
      ∀ k, lookupKV ([(1, 30), (2, 20)] : List (Nat × Nat)) k = assocLast kvs k :=
  c5_map_last_seen_wins Nat Nat
    (fun _ => (true, [([1], [10]), ([2], [20]), ([1], [30])]))
    (fun b _ => Except.ok b.headI) (fun b _ => Except.ok b.headI) [] none []
    [(1, 30), (2, 20)] rfl
